import Mathlib

/-!
Verification of the OpenAPI validation and reference-resolution pipeline
(`main.go`, `rules/validator.go`): a shallow embedding of the rule-driven
validation engine, the resolution orchestration and the pipeline driver.
External collaborators (the YAML parser, the spec indexer, the rolodex
reference resolver and the YAML serializer) are passed as explicit function
parameters, so that every theorem quantifies over their behavior.
-/

namespace OFB

/-- A YAML value as produced by `yaml.Unmarshal`: a mapping with string keys
(kept as an ordered association list, modelling the map in its iteration
order), a sequence, a string scalar, or nil. Scalar kinds other than
strings are irrelevant to the code paths modelled here, since the engine
only type-asserts strings. -/
inductive Yaml where
  | str (s : String)
  | nullv
  | map (entries : List (String × Yaml))
  | seq (items : List Yaml)

/-- Lookup of a key in a YAML mapping (Go map indexing, missing key gives
the zero value nil, modelled as `none`). -/
def lookupYaml (m : List (String × Yaml)) (k : String) : Option Yaml :=
  match m with
  | [] => none
  | (k2, v) :: rest => if k2 = k then some v else lookupYaml rest k

/-- The read-only facts the external `index.NewSpecIndex` indexer exposes to
the engine: whether `GetSecuritySchemes()` is non-nil, whether
`GetContactInfo()` is non-nil, the ordered list from `GetAllServerURLs()`,
and the messages of `GetValidationErrors()`. -/
structure IndexFacts where
  securitySchemesPresent : Bool
  contactPresent : Bool
  serverURLs : List String
  structuralFindings : List String
deriving DecidableEq, Repr

/-- One aggregated validation error: either a structural finding coming from
the indexer, or a rule finding built by `fmt.Errorf` from a rule's severity
string and its `description` value. -/
inductive Finding where
  | structural (msg : String)
  | rule (severity : String) (description : Yaml)

/-- Outcome of `validateOpenAPIWithRules`: a normal `error`-typed return
(`ok` for nil, `err` for non-nil), or a Go runtime panic raised by a failed
type assertion (which aborts the whole process). -/
inductive Outcome (α : Type) where
  | ok (a : α)
  | err (msg : String)
  | crash
deriving DecidableEq, Repr

/-- The external collaborators the pipeline drives, as pure functions:
`parse` is `yaml.Unmarshal` into a node tree, `buildIndex` is
`index.NewSpecIndex` plus its getters, `indexRolodex` is the error channel
of `rolodex.IndexTheRolodex()`, `resolveRefs` is `rolodex.Resolve()`
(returning the mutated tree together with the resolution errors it records
internally), and `marshal` is `yaml.Marshal`. -/
structure Collab where
  parse : List Nat → Except String Yaml
  buildIndex : Yaml → IndexFacts
  indexRolodex : Yaml → Option String
  resolveRefs : Yaml → Yaml × List String
  marshal : Yaml → Except String (List Nat)

/-! ## Encoding normalizer (`convertToUTF8`) -/

/-- UTF-8 encoding of a single code point. -/
def utf8Encode (cp : Nat) : List Nat :=
  if cp < 0x80 then [cp]
  else if cp < 0x800 then [0xC0 + cp / 64, 0x80 + cp % 64]
  else if cp < 0x10000 then
    [0xE0 + cp / 4096, 0x80 + cp / 64 % 64, 0x80 + cp % 64]
  else
    [0xF0 + cp / 262144, 0x80 + cp / 4096 % 64, 0x80 + cp / 64 % 64,
     0x80 + cp % 64]

/-- UTF-8 bytes of the replacement character U+FFFD. -/
def replacementBytes : List Nat := [0xEF, 0xBF, 0xBD]

/-- Modelled from the spec: the UTF-16 to UTF-8 transcoding performed by the
external `unicode.BOMOverride` decoder when a UTF-16 byte-order mark was
seen (the library is not part of this repository). Ill-formed units become
the replacement character; `be` selects big-endian byte order. -/
def utf16Decode (be : Bool) : List Nat → List Nat
  | [] => []
  | [_] => replacementBytes
  | a :: b :: rest =>
    let u := if be then a * 256 + b else b * 256 + a
    if 0xD800 ≤ u ∧ u < 0xDC00 then
      match rest with
      | c :: d :: rest2 =>
        let v := if be then c * 256 + d else d * 256 + c
        if 0xDC00 ≤ v ∧ v < 0xE000 then
          utf8Encode (0x10000 + (u - 0xD800) * 1024 + (v - 0xDC00)) ++
            utf16Decode be rest2
        else replacementBytes ++ utf16Decode be (c :: d :: rest2)
      | _ => replacementBytes
    else if 0xDC00 ≤ u ∧ u < 0xE000 then
      replacementBytes ++ utf16Decode be rest
    else
      utf8Encode u ++ utf16Decode be rest
termination_by l => l.length
decreasing_by all_goals (simp [List.length] <;> omega)

/-- Does the byte sequence begin with the UTF-8 byte-order mark? -/
def hasUTF8BOM (d : List Nat) : Bool :=
  match d with
  | 0xEF :: 0xBB :: 0xBF :: _ => true
  | _ => false

/-- Does the byte sequence begin with the UTF-16 big-endian mark? -/
def hasUTF16BEBOM (d : List Nat) : Bool :=
  match d with
  | 0xFE :: 0xFF :: _ => true
  | _ => false

/-- Does the byte sequence begin with the UTF-16 little-endian mark? -/
def hasUTF16LEBOM (d : List Nat) : Bool :=
  match d with
  | 0xFF :: 0xFE :: _ => true
  | _ => false

/-- Does the byte sequence begin with any byte-order mark the decoder
recognizes? -/
def hasBOM (d : List Nat) : Bool :=
  hasUTF8BOM d || hasUTF16BEBOM d || hasUTF16LEBOM d

/-- `convertToUTF8`: feeds the bytes through
`unicode.BOMOverride(transform.Nop)`. Modelled from the spec for the
external transformer: a leading byte-order mark switches to the matching
UTF decoding (stripping the mark); without a mark the fallback `Nop`
transformer passes the bytes through unchanged. The `Nop` fallback never
returns a transcoding error, so the Go error channel is always nil and is
omitted here. -/
def convertToUTF8 (data : List Nat) : List Nat :=
  match data with
  | 0xEF :: 0xBB :: 0xBF :: rest => rest
  | 0xFE :: 0xFF :: rest => utf16Decode true rest
  | 0xFF :: 0xFE :: rest => utf16Decode false rest
  | _ => data

/-! ## File reading -/

/-- `readFile`: `ioutil.ReadFile` (the file system is a map from paths to
byte contents; a missing file is the read error) followed by
`convertToUTF8`. -/
def readFile (fs : String → Option (List Nat)) (filePath : String) :
    Except String (List Nat) :=
  match fs filePath with
  | none => Except.error ("erro ao ler o arquivo " ++ filePath)
  | some data => Except.ok (convertToUTF8 data)

/-! ## Rule engine -/

/-- The typed view `yaml.Unmarshal` takes when decoding into
`map[string]interface` with a string key type: a top-level mapping yields
its entries, an empty document leaves the map nil (zero entries), and any
other top-level kind is a type error. -/
def decodeStringMap : Yaml → Except String (List (String × Yaml))
  | Yaml.map entries => Except.ok entries
  | Yaml.nullv => Except.ok []
  | _ => Except.error "tipo de documento incompativel com map"

/-- `loadRules`: reads the rule file with `ioutil.ReadFile` (note: without
the UTF-8 conversion used for documents) and unmarshals it into a
string-keyed map. -/
def loadRules (c : Collab) (fs : String → Option (List Nat))
    (ruleFile : String) : Except String (List (String × Yaml)) :=
  match fs ruleFile with
  | none => Except.error ("erro ao ler regras YAML: " ++ ruleFile)
  | some data =>
    match c.parse data with
    | Except.error e =>
      Except.error ("erro ao fazer unmarshal das regras: " ++ e)
    | Except.ok v =>
      match decodeStringMap v with
      | Except.error e =>
        Except.error ("erro ao fazer unmarshal das regras: " ++ e)
      | Except.ok entries => Except.ok entries

/-- The server-URL check of the third built-in rule:
`bytes.HasPrefix([]byte(url), []byte("https://"))`, a plain byte-sequence
comparison modelled on the character sequences. -/
def startsWithHttps (url : String) : Bool :=
  "https://".data.isPrefixOf url.data

/-- The findings one rule contributes, given its `given` selector, its
`severity` string and its `description` value: the three hard-coded
selector checks of `validateOpenAPIWithRules`, in source order. An
unrecognized selector matches none of the three conditionals and
contributes nothing. -/
def evalRule (idx : IndexFacts) (given severity : String)
    (description : Yaml) : List Finding :=
  (if given = "$.components.securitySchemes" then
    (if idx.securitySchemesPresent then []
     else [Finding.rule severity description])
   else []) ++
  (if given = "$.info.contact" then
    (if idx.contactPresent then []
     else [Finding.rule severity description])
   else []) ++
  (if given = "$.servers[*].url" then
    (idx.serverURLs.filter (fun url => !startsWithHttps url)).map
      (fun _ => Finding.rule severity description)
   else [])

/-- The loop over the `rules` mapping: each rule value is type-asserted to
a mapping, its `given` and `severity` entries are type-asserted to strings
(a failed assertion is a Go runtime panic, modelled as `none`), and the
rule's findings are appended in iteration order. The `description` value is
taken as-is (a missing key gives nil). -/
def applyRules (idx : IndexFacts) :
    List (String × Yaml) → Option (List Finding)
  | [] => some []
  | (_, ruleVal) :: rest =>
    match ruleVal with
    | Yaml.map ruleData =>
      match lookupYaml ruleData "given", lookupYaml ruleData "severity" with
      | some (Yaml.str given), some (Yaml.str severity) =>
        let description := (lookupYaml ruleData "description").getD Yaml.nullv
        match applyRules idx rest with
        | none => none
        | some more => some (evalRule idx given severity description ++ more)
      | _, _ => none
    | _ => none

/-- The aggregated finding sequence of `validateOpenAPIWithRules` once the
document is indexed and the rule file is loaded: the indexer's own
validation errors, then — only when the top level has a `rules` key whose
value type-asserts to a mapping — the findings of the rule loop. `none` is
the runtime panic of the rule loop. -/
def aggregateFindings (idx : IndexFacts)
    (rulesTop : List (String × Yaml)) : Option (List Finding) :=
  match lookupYaml rulesTop "rules" with
  | some (Yaml.map rulesMap) =>
    match applyRules idx rulesMap with
    | none => none
    | some ruleFound =>
      some (idx.structuralFindings.map Finding.structural ++ ruleFound)
  | _ => some (idx.structuralFindings.map Finding.structural)

/-- `validateOpenAPIWithRules`: read and normalize the document, unmarshal
it, index it, load the rule file, apply the rules, and fail iff the
aggregated error list is non-empty. -/
def validateOpenAPIWithRules (c : Collab)
    (fs : String → Option (List Nat)) (filePath rulesFile : String) :
    Outcome Unit :=
  match readFile fs filePath with
  | Except.error e => Outcome.err e
  | Except.ok data =>
    match c.parse data with
    | Except.error e =>
      Outcome.err ("erro ao fazer unmarshal do YAML: " ++ e)
    | Except.ok rootNode =>
      match loadRules c fs rulesFile with
      | Except.error e => Outcome.err e
      | Except.ok rules =>
        match aggregateFindings (c.buildIndex rootNode) rules with
        | none => Outcome.crash
        | some validationErrors =>
          if 0 < validationErrors.length then
            Outcome.err "falha na validação do OpenAPI"
          else Outcome.ok ()

/-! ## Reference-resolution orchestration -/

/-- `resolveOpenAPI`: read and normalize the input, unmarshal it, index the
rolodex (an indexing error is wrapped and returned), run `Resolve()` —
whose internally recorded resolution errors the code never reads —
marshal the mutated root node, and write the output file. A successful run
returns the written file as a path and its bytes (`ioutil.WriteFile` on the
working directory is modelled as always succeeding). -/
def resolveOpenAPI (c : Collab) (fs : String → Option (List Nat))
    (inputFile outputFile : String) :
    Except String (String × List Nat) :=
  match readFile fs inputFile with
  | Except.error e => Except.error e
  | Except.ok data =>
    match c.parse data with
    | Except.error e =>
      Except.error ("erro ao fazer unmarshal do YAML: " ++ e)
    | Except.ok rootNode =>
      match c.indexRolodex rootNode with
      | some e => Except.error ("erro ao indexar as referências: " ++ e)
      | none =>
        let resolved := (c.resolveRefs rootNode).1
        match c.marshal resolved with
        | Except.error e =>
          Except.error ("erro ao converter para YAML: " ++ e)
        | Except.ok resolvedYAML => Except.ok (outputFile, resolvedYAML)

/-! ## Pipeline driver -/

/-- Observable result of one run of `main`: the process exit code, which of
the four stages were entered, and the output files written. A Go panic
terminates the process with exit code 2. -/
structure RunResult where
  exitCode : Nat
  validatedOld : Bool
  validatedNew : Bool
  resolvedOld : Bool
  resolvedNew : Bool
  written : List (String × List Nat)
deriving Repr

/-- `main`: with fewer than four arguments (the program name included, as
in `os.Args`) print usage and return normally; otherwise validate the old
document, validate the new document, resolve the old document into
`oldSwaggerResolve.yaml`, and resolve the new document into
`swaggerResolve.yaml`, exiting with code 1 at the first stage that returns
an error. -/
def main (c : Collab) (fs : String → Option (List Nat))
    (args : List String) : RunResult :=
  match args with
  | _ :: oldFile :: newFile :: rulesFile :: _ =>
    match validateOpenAPIWithRules c fs oldFile rulesFile with
    | Outcome.crash => ⟨2, true, false, false, false, []⟩
    | Outcome.err _ => ⟨1, true, false, false, false, []⟩
    | Outcome.ok _ =>
      match validateOpenAPIWithRules c fs newFile rulesFile with
      | Outcome.crash => ⟨2, true, true, false, false, []⟩
      | Outcome.err _ => ⟨1, true, true, false, false, []⟩
      | Outcome.ok _ =>
        match resolveOpenAPI c fs oldFile "oldSwaggerResolve.yaml" with
        | Except.error _ => ⟨1, true, true, true, false, []⟩
        | Except.ok w1 =>
          match resolveOpenAPI c fs newFile "swaggerResolve.yaml" with
          | Except.error _ => ⟨1, true, true, true, true, [w1]⟩
          | Except.ok w2 => ⟨0, true, true, true, true, [w1, w2]⟩
  | _ => ⟨0, false, false, false, false, []⟩

/-! ## Severity rewriting (used to state that severity never decides the
validation outcome) -/

/-- Replace the value of a `severity` entry, when it is a string, with the
string `s`; leave every other entry unchanged. -/
def setEntrySeverity (s : String) (kv : String × Yaml) : String × Yaml :=
  if kv.1 = "severity" then
    match kv.2 with
    | Yaml.str _ => (kv.1, Yaml.str s)
    | _ => kv
  else kv

/-- Rewrite the declared severity of one rule object to `s`. -/
def setRuleSeverity (s : String) : Yaml → Yaml
  | Yaml.map ruleData => Yaml.map (ruleData.map (setEntrySeverity s))
  | v => v

/-- Rewrite the declared severity of every rule in a rules mapping. -/
def setSeverities (s : String) (rulesMap : List (String × Yaml)) :
    List (String × Yaml) :=
  rulesMap.map (fun kv => (kv.1, setRuleSeverity s kv.2))

/-- Rewrite one top-level rule-file entry: the `rules` mapping has all its
rule severities rewritten, everything else is unchanged. -/
def setTopEntry (s : String) (kv : String × Yaml) : String × Yaml :=
  if kv.1 = "rules" then
    match kv.2 with
    | Yaml.map rulesMap => (kv.1, Yaml.map (setSeverities s rulesMap))
    | _ => kv
  else kv

/-- Rewrite the declared severity of every rule under the top-level
`rules` key of a rule file. -/
def setSeveritiesTop (s : String) (top : List (String × Yaml)) :
    List (String × Yaml) :=
  top.map (setTopEntry s)

/-! ## Concrete sample data used by witnesses and counterexamples -/

/-- Index facts carrying a single structural finding from the indexer. -/
def idxOneStructural : IndexFacts :=
  ⟨true, true, [], ["campo obrigatório ausente"]⟩

/-- A collaborator bundle whose indexer always reports one structural
finding, so that validation of any document fails. -/
def collabStructuralFail : Collab :=
  ⟨fun _ => Except.ok Yaml.nullv, fun _ => idxOneStructural,
   fun _ => none, fun t => (t, []), fun _ => Except.ok []⟩

/-- A file system on which every path exists with empty content. -/
def fsAllEmpty : String → Option (List Nat) := fun _ => some []

/-- A rule file, already parsed: one rule on the contact selector with
severity `warning`. -/
def rulesTopContact : List (String × Yaml) :=
  [("rules", Yaml.map
    [("contact-rule", Yaml.map
      [("given", Yaml.str "$.info.contact"),
       ("severity", Yaml.str "warning"),
       ("description", Yaml.str "contato ausente")])])]

/-- A collaborator bundle parsing empty bytes to the nil document and any
other bytes to the contact rule file, over an index with no contact
metadata. -/
def collabContact : Collab :=
  ⟨fun b => if b.isEmpty then Except.ok Yaml.nullv
            else Except.ok (Yaml.map rulesTopContact),
   fun _ => ⟨true, false, [], []⟩,
   fun _ => none, fun t => (t, []), fun _ => Except.ok []⟩

/-- A file system where the rule file has one byte and every other path is
empty. -/
def fsContact : String → Option (List Nat) :=
  fun p => if p = "rules.yaml" then some [1] else some []

/-- A file system for two independent runs: agrees with `fsDetB` on the
input file only. -/
def fsDetA : String → Option (List Nat) :=
  fun p => if p = "in.yaml" then some [7] else some [1]

/-- A second file system that coincides with `fsDetA` on `in.yaml` but on
nothing else. -/
def fsDetB : String → Option (List Nat) :=
  fun p => if p = "in.yaml" then some [7] else none

/-- A collaborator whose resolver records one caught resolution error that
the orchestration never reads. -/
def collabSwallow : Collab :=
  ⟨fun _ => Except.ok Yaml.nullv, fun _ => ⟨true, true, [], []⟩,
   fun _ => none, fun t => (t, ["referência circular não expandida"]),
   fun _ => Except.ok [10]⟩

/-- A collaborator whose rolodex indexing step fails. -/
def collabIndexFail : Collab :=
  ⟨fun _ => Except.ok Yaml.nullv, fun _ => ⟨true, true, [], []⟩,
   fun _ => some "referência não encontrada", fun t => (t, []),
   fun _ => Except.ok []⟩

/-- Index facts of a document violating all three built-in rules: no
security schemes, no contact metadata, one plain-http server URL. -/
def idxViolating : IndexFacts := ⟨false, false, ["http://example.com"], []⟩

/-- The three built-in rules, one per recognized selector. -/
def threeBuiltinRules : List (String × Yaml) :=
  [("security-schemes-defined", Yaml.map
     [("given", Yaml.str "$.components.securitySchemes"),
      ("severity", Yaml.str "error"),
      ("description", Yaml.str "esquemas de segurança ausentes")]),
   ("contact-defined", Yaml.map
     [("given", Yaml.str "$.info.contact"),
      ("severity", Yaml.str "warning"),
      ("description", Yaml.str "contato ausente")]),
   ("servers-https", Yaml.map
     [("given", Yaml.str "$.servers[*].url"),
      ("severity", Yaml.str "error"),
      ("description", Yaml.str "URL de servidor sem https")])]

/-- Index facts with no security schemes, contact present and one
plain-http server URL. -/
def idxNoSchemesHttp : IndexFacts :=
  ⟨false, true, ["http://example.com"], []⟩

/-- A rules mapping iterating the server-URL rule before the
security-schemes rule. -/
def twoRulesServerFirst : List (String × Yaml) :=
  [("servers-https", Yaml.map
     [("given", Yaml.str "$.servers[*].url"),
      ("severity", Yaml.str "error"),
      ("description", Yaml.str "descServer")]),
   ("security-schemes-defined", Yaml.map
     [("given", Yaml.str "$.components.securitySchemes"),
      ("severity", Yaml.str "error"),
      ("description", Yaml.str "descSchemes")])]

/-- The rule-loop walker restricted to the selectors accepted by `keep`:
identical to `applyRules` in its panic behavior, but a rule whose selector
is rejected contributes no findings. Used only to spell out, for
comparison, the ordering the specification describes. -/
def rulesFindingsWhere (idx : IndexFacts) (keep : String → Bool) :
    List (String × Yaml) → Option (List Finding)
  | [] => some []
  | (_, ruleVal) :: rest =>
    match ruleVal with
    | Yaml.map ruleData =>
      match lookupYaml ruleData "given", lookupYaml ruleData "severity" with
      | some (Yaml.str given), some (Yaml.str severity) =>
        let description := (lookupYaml ruleData "description").getD Yaml.nullv
        match rulesFindingsWhere idx keep rest with
        | none => none
        | some more =>
          some ((if keep given then evalRule idx given severity description
                 else []) ++ more)
      | _, _ => none
    | _ => none

/-- Follows the specification's words, not the source: rule-derived
findings of the non-server rules in rule-file iteration order, followed by
all per-server-URL findings, as a separate trailing block. -/
def specClaimedFindings (idx : IndexFacts) (rm : List (String × Yaml)) :
    Option (List Finding) :=
  match rulesFindingsWhere idx (fun g => !(g == "$.servers[*].url")) rm,
        rulesFindingsWhere idx (fun g => g == "$.servers[*].url") rm with
  | some nonServer, some server => some (nonServer ++ server)
  | _, _ => none

/-- A rules mapping whose second rule lacks the required `severity`
field. -/
def rulesMapMissingField : List (String × Yaml) :=
  [("boa", Yaml.map
     [("given", Yaml.str "$.info.contact"),
      ("severity", Yaml.str "error")]),
   ("quebrada", Yaml.map [("given", Yaml.str "$.info.contact")])]

/-- A rule file whose `rules` mapping is `rulesMapMissingField`. -/
def rulesTopMissingField : List (String × Yaml) :=
  [("rules", Yaml.map rulesMapMissingField)]

/-- A collaborator parsing empty bytes to nil and other bytes to the rule
file with a missing field, over an index with no contact metadata. -/
def collabMissingField : Collab :=
  ⟨fun b => if b.isEmpty then Except.ok Yaml.nullv
            else Except.ok (Yaml.map rulesTopMissingField),
   fun _ => ⟨true, false, [], []⟩,
   fun _ => none, fun t => (t, []), fun _ => Except.ok []⟩

/-- A collaborator parsing every byte sequence to a well-formed top-level
YAML sequence. -/
def collabSeqRules : Collab :=
  ⟨fun _ => Except.ok (Yaml.seq []), fun _ => ⟨true, true, [], []⟩,
   fun _ => none, fun t => (t, []), fun _ => Except.ok []⟩

/-- A top-level rule-file mapping with no `rules` key. -/
def topNoRulesKey : List (String × Yaml) := [("x", Yaml.str "y")]

/-- A collaborator parsing empty bytes to nil and other bytes to the
mapping without a `rules` key, over a clean index. -/
def collabNoRulesKey : Collab :=
  ⟨fun b => if b.isEmpty then Except.ok Yaml.nullv
            else Except.ok (Yaml.map topNoRulesKey),
   fun _ => ⟨true, true, [], []⟩,
   fun _ => none, fun t => (t, []), fun _ => Except.ok []⟩

end OFB

namespace OFB

/-- C8: a byte sequence that does not begin with a byte-order mark is
returned unchanged by `convertToUTF8`, and hence normalization is
idempotent on such inputs. -/
theorem convertToUTF8_no_bom_id (data : List Nat) (h : hasBOM data = false) :
    convertToUTF8 data = data ∧
    convertToUTF8 (convertToUTF8 data) = convertToUTF8 data := by
  have hid : convertToUTF8 data = data := by
    unfold convertToUTF8
    split <;>
      simp_all [hasBOM, hasUTF8BOM, hasUTF16BEBOM, hasUTF16LEBOM]
  exact ⟨hid, by rw [hid, hid]⟩

/-- Witness for C8 at the concrete BOM-free input `[104, 105]`. -/
theorem convertToUTF8_no_bom_id_witness :
    hasBOM [104, 105] = false ∧
    (convertToUTF8 [104, 105] = [104, 105] ∧
      convertToUTF8 (convertToUTF8 [104, 105]) = convertToUTF8 [104, 105]) :=
  ⟨by decide, convertToUTF8_no_bom_id [104, 105] (by decide)⟩

/-- C1: the full pipeline is fail-fast, left to right. If validating the
old document does not succeed, the process exits non-zero, the new
document is never validated, neither document is resolved, and no output
file is written; and in general each stage is entered only if every
earlier stage succeeded. -/
theorem main_fail_fast (c : Collab) (fs : String → Option (List Nat))
    (prog oldFile newFile rulesFile : String) (rest : List String) :
    (validateOpenAPIWithRules c fs oldFile rulesFile ≠ Outcome.ok () →
      (main c fs (prog :: oldFile :: newFile :: rulesFile :: rest)).exitCode ≠ 0 ∧
      (main c fs (prog :: oldFile :: newFile :: rulesFile :: rest)).validatedNew = false ∧
      (main c fs (prog :: oldFile :: newFile :: rulesFile :: rest)).resolvedOld = false ∧
      (main c fs (prog :: oldFile :: newFile :: rulesFile :: rest)).resolvedNew = false ∧
      (main c fs (prog :: oldFile :: newFile :: rulesFile :: rest)).written = []) ∧
    ((main c fs (prog :: oldFile :: newFile :: rulesFile :: rest)).validatedNew = true →
      validateOpenAPIWithRules c fs oldFile rulesFile = Outcome.ok ()) ∧
    ((main c fs (prog :: oldFile :: newFile :: rulesFile :: rest)).resolvedOld = true →
      validateOpenAPIWithRules c fs oldFile rulesFile = Outcome.ok () ∧
      validateOpenAPIWithRules c fs newFile rulesFile = Outcome.ok ()) ∧
    ((main c fs (prog :: oldFile :: newFile :: rulesFile :: rest)).resolvedNew = true →
      validateOpenAPIWithRules c fs oldFile rulesFile = Outcome.ok () ∧
      validateOpenAPIWithRules c fs newFile rulesFile = Outcome.ok () ∧
      ∃ w, resolveOpenAPI c fs oldFile "oldSwaggerResolve.yaml" = Except.ok w) := by
  cases h1 : validateOpenAPIWithRules c fs oldFile rulesFile with
  | crash => simp [main, h1]
  | err e => simp [main, h1]
  | ok u =>
    cases u
    cases h2 : validateOpenAPIWithRules c fs newFile rulesFile with
    | crash => simp [main, h1, h2]
    | err e => simp [main, h1, h2]
    | ok u2 =>
      cases u2
      cases h3 : resolveOpenAPI c fs oldFile "oldSwaggerResolve.yaml" with
      | error e => simp [main, h1, h2, h3]
      | ok w1 =>
        cases h4 : resolveOpenAPI c fs newFile "swaggerResolve.yaml" with
        | error e => simp [main, h1, h2, h3, h4]
        | ok w2 => simp [main, h1, h2, h3, h4]

/-- Witness for C1: with an indexer that reports a structural finding, the
old document fails validation and the run stops there, writing nothing. -/
theorem main_fail_fast_witness :
    (main collabStructuralFail fsAllEmpty
        ["prog", "old.yaml", "new.yaml", "rules.yaml"]).exitCode ≠ 0 ∧
    (main collabStructuralFail fsAllEmpty
        ["prog", "old.yaml", "new.yaml", "rules.yaml"]).validatedNew = false ∧
    (main collabStructuralFail fsAllEmpty
        ["prog", "old.yaml", "new.yaml", "rules.yaml"]).resolvedOld = false ∧
    (main collabStructuralFail fsAllEmpty
        ["prog", "old.yaml", "new.yaml", "rules.yaml"]).resolvedNew = false ∧
    (main collabStructuralFail fsAllEmpty
        ["prog", "old.yaml", "new.yaml", "rules.yaml"]).written = [] :=
  (main_fail_fast collabStructuralFail fsAllEmpty
      "prog" "old.yaml" "new.yaml" "rules.yaml" []).1
    (by decide)

/-- Looking a key other than `severity` up in a rule object is unchanged by
the severity rewriting. -/
lemma lookupYaml_setEntry_ne (s k : String) (hk : k ≠ "severity")
    (m : List (String × Yaml)) :
    lookupYaml (m.map (setEntrySeverity s)) k = lookupYaml m k := by
  induction m with
  | nil => rfl
  | cons kv rest ih =>
    rcases kv with ⟨k2, v⟩
    by_cases hsev : k2 = "severity"
    · subst hsev
      have hks : ¬ ("severity" = k) := fun h => hk h.symm
      cases v <;> simp [lookupYaml, setEntrySeverity, hks, ih]
    · have he : setEntrySeverity s (k2, v) = (k2, v) := by
        simp [setEntrySeverity, hsev]
      simp only [List.map_cons, he]
      simp [lookupYaml, ih]

/-- Looking `severity` up in a rule object after the rewriting gives the
replacement string exactly when the original value was a string. -/
lemma lookupYaml_setEntry_sev (s : String) (m : List (String × Yaml)) :
    lookupYaml (m.map (setEntrySeverity s)) "severity" =
      match lookupYaml m "severity" with
      | some (Yaml.str _) => some (Yaml.str s)
      | o => o := by
  induction m with
  | nil => rfl
  | cons kv rest ih =>
    rcases kv with ⟨k2, v⟩
    by_cases hsev : k2 = "severity"
    · subst hsev
      cases v <;> simp [lookupYaml, setEntrySeverity]
    · have he : setEntrySeverity s (k2, v) = (k2, v) := by
        simp [setEntrySeverity, hsev]
      simp only [List.map_cons, he]
      simp [lookupYaml, hsev, ih]

/-- The number of findings one rule contributes does not depend on its
severity string or its description value. -/
lemma evalRule_length (idx : IndexFacts) (given s1 s2 : String)
    (d1 d2 : Yaml) :
    (evalRule idx given s1 d1).length = (evalRule idx given s2 d2).length := by
  unfold evalRule
  split_ifs <;> simp

/-- Rewriting every declared severity preserves whether the rule loop
panics and how many findings it produces. -/
lemma applyRules_setSeverities (idx : IndexFacts) (s : String)
    (rm : List (String × Yaml)) :
    (applyRules idx (setSeverities s rm)).map List.length =
      (applyRules idx rm).map List.length := by
  induction rm with
  | nil => rfl
  | cons kv rest ih =>
    rcases kv with ⟨name, ruleVal⟩
    cases ruleVal with
    | str v => simp [applyRules, setSeverities, setRuleSeverity]
    | nullv => simp [applyRules, setSeverities, setRuleSeverity]
    | seq items => simp [applyRules, setSeverities, setRuleSeverity]
    | map ruleData =>
      have hg := lookupYaml_setEntry_ne s "given" (by decide) ruleData
      have hd := lookupYaml_setEntry_ne s "description" (by decide) ruleData
      have hsv := lookupYaml_setEntry_sev s ruleData
      have hhead : setSeverities s ((name, Yaml.map ruleData) :: rest) =
          (name, Yaml.map (ruleData.map (setEntrySeverity s))) ::
            setSeverities s rest := by
        simp [setSeverities, setRuleSeverity]
      rw [hhead]
      simp only [applyRules]
      rw [hg, hd, hsv]
      cases hgv : lookupYaml ruleData "given" with
      | none => simp
      | some gv =>
        cases gv with
        | nullv => simp
        | map m2 => simp
        | seq i2 => simp
        | str g =>
          cases hsl : lookupYaml ruleData "severity" with
          | none => simp
          | some sv =>
            cases sv with
            | nullv => simp
            | map m3 => simp
            | seq i3 => simp
            | str svs =>
              cases happ : applyRules idx rest with
              | none =>
                have h0 : applyRules idx (setSeverities s rest) = none := by
                  have h2 := ih
                  rw [happ] at h2
                  simpa using h2
                simp [happ, h0]
              | some found =>
                have h1 : (applyRules idx (setSeverities s rest)).map
                    List.length = some found.length := by
                  rw [ih, happ]
                  rfl
                obtain ⟨l2, hl2, hlen⟩ := Option.map_eq_some'.mp h1
                simp only [hl2, happ]
                simp [List.length_append, hlen,
                  evalRule_length idx g s svs
                    ((lookupYaml ruleData "description").getD Yaml.nullv)
                    ((lookupYaml ruleData "description").getD Yaml.nullv)]

/-- Looking `rules` up after rewriting the severities of a rule file. -/
lemma lookupYaml_setSeveritiesTop (s : String)
    (top : List (String × Yaml)) :
    lookupYaml (setSeveritiesTop s top) "rules" =
      match lookupYaml top "rules" with
      | some (Yaml.map rm) => some (Yaml.map (setSeverities s rm))
      | o => o := by
  induction top with
  | nil => rfl
  | cons kv rest ih =>
    rcases kv with ⟨k, v⟩
    by_cases hk : k = "rules"
    · subst hk
      cases v <;> simp [setSeveritiesTop, setTopEntry, lookupYaml]
    · have he : setTopEntry s (k, v) = (k, v) := by
        simp [setTopEntry, hk]
      simp only [setSeveritiesTop, List.map_cons, he]
      simp [lookupYaml, hk, setSeveritiesTop] at ih ⊢
      exact ih

/-- Rewriting every declared severity preserves whether aggregation panics
and how many findings it aggregates. -/
lemma aggregateFindings_setSeveritiesTop (idx : IndexFacts) (s : String)
    (top : List (String × Yaml)) :
    (aggregateFindings idx (setSeveritiesTop s top)).map List.length =
      (aggregateFindings idx top).map List.length := by
  unfold aggregateFindings
  rw [lookupYaml_setSeveritiesTop]
  cases h : lookupYaml top "rules" with
  | none => rfl
  | some v =>
    cases v with
    | str v2 => rfl
    | nullv => rfl
    | seq i => rfl
    | map rm =>
      have hs := applyRules_setSeverities idx s rm
      cases ha : applyRules idx rm with
      | none =>
        have h0 : applyRules idx (setSeverities s rm) = none := by
          rw [ha] at hs
          simpa using hs
        simp [h0, ha]
      | some found =>
        have h1 : (applyRules idx (setSeverities s rm)).map List.length =
            some found.length := by
          rw [hs, ha]
          rfl
        obtain ⟨l2, hl2, hlen⟩ := Option.map_eq_some'.mp h1
        simp [ha, hl2, hlen]

/-- C2: once the document is read, parsed and the rule file loaded,
validation succeeds precisely when the aggregated finding sequence is
empty; and the declared severities never change whether the rule loop
panics or how many findings are aggregated, so they never decide the
outcome. -/
theorem validate_fails_iff_findings (c : Collab)
    (fs : String → Option (List Nat)) (filePath rulesFile : String)
    (data : List Nat) (doc : Yaml) (rulesTop : List (String × Yaml))
    (h1 : readFile fs filePath = Except.ok data)
    (h2 : c.parse data = Except.ok doc)
    (h3 : loadRules c fs rulesFile = Except.ok rulesTop) :
    (∀ found, aggregateFindings (c.buildIndex doc) rulesTop = some found →
      (validateOpenAPIWithRules c fs filePath rulesFile = Outcome.ok () ↔
        found = [])) ∧
    (∀ s, (aggregateFindings (c.buildIndex doc)
        (setSeveritiesTop s rulesTop)).map List.length =
      (aggregateFindings (c.buildIndex doc) rulesTop).map List.length) := by
  constructor
  · intro found hf
    simp only [validateOpenAPIWithRules, h1, h2, h3, hf]
    rcases found with _ | ⟨f, frest⟩
    · simp
    · simp
  · intro s
    exact aggregateFindings_setSeveritiesTop (c.buildIndex doc) s rulesTop

/-- Witness for C2 at a concrete document with no contact metadata and the
one-rule contact rule file. -/
theorem validate_fails_iff_findings_witness :
    (validateOpenAPIWithRules collabContact fsContact "doc.yaml" "rules.yaml"
        = Outcome.ok () ↔
      [Finding.rule "warning" (Yaml.str "contato ausente")] = []) ∧
    (aggregateFindings (collabContact.buildIndex Yaml.nullv)
        (setSeveritiesTop "error" rulesTopContact)).map List.length =
      (aggregateFindings (collabContact.buildIndex Yaml.nullv)
        rulesTopContact).map List.length := by
  have h := validate_fails_iff_findings collabContact fsContact
    "doc.yaml" "rules.yaml" [] Yaml.nullv rulesTopContact rfl rfl rfl
  exact ⟨h.1 _ rfl, h.2 "error"⟩

/-- Counterexample to C3: a resolver that records a caught resolution
error (an unexpanded circular reference) does not make `resolveOpenAPI`
fail — the function succeeds and writes the output file, so the resolver
error is silently swallowed rather than surfaced. -/
theorem resolve_swallows_resolver_errors :
    (collabSwallow.resolveRefs Yaml.nullv).2 ≠ [] ∧
    resolveOpenAPI collabSwallow fsAllEmpty "in.yaml" "out.yaml" =
      Except.ok ("out.yaml", [10]) := by
  constructor
  · intro h
    simp [collabSwallow] at h
  · rfl

/-- C3 (amended): only the indexing phase's errors are surfaced by
`resolveOpenAPI`; the error list the resolution phase records is dead —
replacing it by any other list never changes the outcome. -/
theorem resolve_surfaces_only_indexing_errors (c : Collab)
    (fs : String → Option (List Nat)) (i o : String) :
    (∀ data doc e, fs i = some data →
      c.parse (convertToUTF8 data) = Except.ok doc →
      c.indexRolodex doc = some e →
      resolveOpenAPI c fs i o =
        Except.error ("erro ao indexar as referências: " ++ e)) ∧
    (∀ errs, resolveOpenAPI
        ⟨c.parse, c.buildIndex, c.indexRolodex,
         fun t => ((c.resolveRefs t).1, errs), c.marshal⟩ fs i o =
      resolveOpenAPI c fs i o) := by
  constructor
  · intro data doc e h1 h2 h3
    simp only [resolveOpenAPI, readFile, h1, h2, h3]
  · intro errs
    rfl

/-- Witness for C3 (amended): a failing indexing step is surfaced with the
wrapping message, and erasing the recorded resolution errors changes
nothing. -/
theorem resolve_surfaces_only_indexing_errors_witness :
    resolveOpenAPI collabIndexFail fsAllEmpty "in.yaml" "out.yaml" =
      Except.error
        ("erro ao indexar as referências: " ++ "referência não encontrada") ∧
    resolveOpenAPI
        ⟨collabIndexFail.parse, collabIndexFail.buildIndex,
         collabIndexFail.indexRolodex,
         fun t => ((collabIndexFail.resolveRefs t).1, []), collabIndexFail.marshal⟩
        fsAllEmpty "in.yaml" "out.yaml" =
      resolveOpenAPI collabIndexFail fsAllEmpty "in.yaml" "out.yaml" := by
  have h := resolve_surfaces_only_indexing_errors collabIndexFail fsAllEmpty
    "in.yaml" "out.yaml"
  exact ⟨h.1 [] Yaml.nullv "referência não encontrada" rfl rfl rfl, h.2 []⟩

/-- C9: resolution is deterministic — its outcome, including the serialized
output bytes, depends only on the content of the input file, so two
independent runs over file systems agreeing on that file produce identical
(byte-for-byte) results. -/
theorem resolve_deterministic (c : Collab)
    (fs1 fs2 : String → Option (List Nat)) (i o : String)
    (h : fs1 i = fs2 i) :
    resolveOpenAPI c fs1 i o = resolveOpenAPI c fs2 i o := by
  simp only [resolveOpenAPI, readFile, h]

/-- Witness for C9: two file systems differing everywhere except on the
input file give the same resolution output. -/
theorem resolve_deterministic_witness :
    fsDetA "in.yaml" = fsDetB "in.yaml" ∧
    resolveOpenAPI collabSwallow fsDetA "in.yaml" "out.yaml" =
      resolveOpenAPI collabSwallow fsDetB "in.yaml" "out.yaml" :=
  ⟨rfl, resolve_deterministic collabSwallow fsDetA fsDetB "in.yaml" "out.yaml" rfl⟩

/-- The rule loop distributes over concatenation of rule lists: findings
are emitted per rule, in iteration order, and a panic anywhere aborts the
whole loop. -/
lemma applyRules_append (idx : IndexFacts) (pre post : List (String × Yaml)) :
    applyRules idx (pre ++ post) =
      match applyRules idx pre, applyRules idx post with
      | some a, some b => some (a ++ b)
      | _, _ => none := by
  induction pre with
  | nil =>
    simp only [List.nil_append, applyRules]
    cases applyRules idx post <;> rfl
  | cons kv rest ih =>
    rcases kv with ⟨name, ruleVal⟩
    cases ruleVal with
    | str v => simp [applyRules]
    | nullv => simp [applyRules]
    | seq items => simp [applyRules]
    | map ruleData =>
      cases hg : lookupYaml ruleData "given" with
      | none => simp [applyRules, hg]
      | some gv =>
        cases gv with
        | nullv => simp [applyRules, hg]
        | map m2 => simp [applyRules, hg]
        | seq i2 => simp [applyRules, hg]
        | str g =>
          cases hs : lookupYaml ruleData "severity" with
          | none => simp [applyRules, hg, hs]
          | some sv =>
            cases sv with
            | nullv => simp [applyRules, hg, hs]
            | map m3 => simp [applyRules, hg, hs]
            | seq i3 => simp [applyRules, hg, hs]
            | str s2 =>
              simp only [List.cons_append, applyRules, hg, hs]
              rw [List.append_eq, ih]
              cases applyRules idx rest <;> cases applyRules idx post <;> simp

/-- The server-URL rule contributes one finding per server URL lacking the
`https://` byte prefix, in server-list order. -/
lemma evalRule_server (idx : IndexFacts) (sev : String) (d : Yaml) :
    evalRule idx "$.servers[*].url" sev d =
      (idx.serverURLs.filter (fun url => !startsWithHttps url)).map
        (fun _ => Finding.rule sev d) := by
  have h31 : ¬ ("$.servers[*].url" = "$.components.securitySchemes") := by
    decide
  have h32 : ¬ ("$.servers[*].url" = "$.info.contact") := by decide
  simp [evalRule, h31, h32]

/-- C5 (amended): the aggregated order is — indexer findings first (they
are a literal front segment of any aggregated sequence), then the findings
of each rule at that rule's own position in the rule-file iteration order
(the loop distributes over concatenation, a single rule contributes exactly
its own findings), the server rule contributing its per-URL findings in
server-list order at its own position rather than in a trailing block. -/
theorem rule_findings_order (idx : IndexFacts) :
    (∀ pre post, applyRules idx (pre ++ post) =
      match applyRules idx pre, applyRules idx post with
      | some a, some b => some (a ++ b)
      | _, _ => none) ∧
    (∀ name given sev d, applyRules idx
        [(name, Yaml.map [("given", Yaml.str given),
          ("severity", Yaml.str sev), ("description", d)])] =
      some (evalRule idx given sev d)) ∧
    (∀ sev d, evalRule idx "$.servers[*].url" sev d =
      (idx.serverURLs.filter (fun url => !startsWithHttps url)).map
        (fun _ => Finding.rule sev d)) ∧
    (∀ top l, aggregateFindings idx top = some l →
      l.take (idx.structuralFindings.map Finding.structural).length =
        idx.structuralFindings.map Finding.structural) := by
  refine ⟨applyRules_append idx, ?_, evalRule_server idx, ?_⟩
  · intro name given sev d
    show some (evalRule idx given sev d ++ []) = some (evalRule idx given sev d)
    simp
  · intro top l h
    unfold aggregateFindings at h
    cases hr : lookupYaml top "rules" with
    | none =>
      simp only [hr, Option.some.injEq] at h
      rw [← h, List.take_length]
    | some v =>
      cases v with
      | str v2 =>
        simp only [hr, Option.some.injEq] at h
        rw [← h, List.take_length]
      | nullv =>
        simp only [hr, Option.some.injEq] at h
        rw [← h, List.take_length]
      | seq i =>
        simp only [hr, Option.some.injEq] at h
        rw [← h, List.take_length]
      | map rm =>
        cases ha : applyRules idx rm with
        | none =>
          simp only [hr, ha] at h
          exact Option.noConfusion h
        | some rf =>
          simp only [hr, ha, Option.some.injEq] at h
          rw [← h, List.take_left]

/-- Witness for C5 (amended) at the contact rule file over an index with
one structural finding: the aggregated sequence starts with the structural
finding. -/
theorem rule_findings_order_witness :
    aggregateFindings idxOneStructural rulesTopContact =
      some [Finding.structural "campo obrigatório ausente"] ∧
    [Finding.structural "campo obrigatório ausente"].take
        ((idxOneStructural.structuralFindings.map Finding.structural).length) =
      idxOneStructural.structuralFindings.map Finding.structural :=
  ⟨rfl, (rule_findings_order idxOneStructural).2.2.2 rulesTopContact
    [Finding.structural "campo obrigatório ausente"] rfl⟩

/-- Counterexample to C5 as stated: with the server rule iterated before
the security-schemes rule, the code emits the per-URL finding at the
server rule's position — before the schemes finding — not as a trailing
block after all rule-derived findings, as the claim orders them. -/
theorem findings_not_grouped_by_kind :
    applyRules idxNoSchemesHttp twoRulesServerFirst =
      some [Finding.rule "error" (Yaml.str "descServer"),
            Finding.rule "error" (Yaml.str "descSchemes")] ∧
    specClaimedFindings idxNoSchemesHttp twoRulesServerFirst =
      some [Finding.rule "error" (Yaml.str "descSchemes"),
            Finding.rule "error" (Yaml.str "descServer")] ∧
    applyRules idxNoSchemesHttp twoRulesServerFirst ≠
      specClaimedFindings idxNoSchemesHttp twoRulesServerFirst := by
  refine ⟨rfl, rfl, ?_⟩
  intro h
  rw [show applyRules idxNoSchemesHttp twoRulesServerFirst =
      some [Finding.rule "error" (Yaml.str "descServer"),
            Finding.rule "error" (Yaml.str "descSchemes")] from rfl,
    show specClaimedFindings idxNoSchemesHttp twoRulesServerFirst =
      some [Finding.rule "error" (Yaml.str "descSchemes"),
            Finding.rule "error" (Yaml.str "descServer")] from rfl] at h
  injection h with h1
  injection h1 with h2 h3
  injection h2 with h4 h5
  injection h5 with h6
  exact absurd h6 (by decide)

/-- C6: the security-schemes rule emits exactly one finding iff the index
reports no security schemes; the contact rule emits exactly one finding
iff the index reports no contact metadata; the server rule emits exactly
one finding per server URL without the `https://` prefix, in server-list
order; and on a document violating all three, the three built-in rules
yield exactly 3 findings. -/
theorem builtin_rules_exact_findings (idx : IndexFacts) (sev : String)
    (d : Yaml) :
    ((evalRule idx "$.components.securitySchemes" sev d).length =
      if idx.securitySchemesPresent then 0 else 1) ∧
    ((evalRule idx "$.info.contact" sev d).length =
      if idx.contactPresent then 0 else 1) ∧
    (evalRule idx "$.servers[*].url" sev d =
      (idx.serverURLs.filter (fun url => !startsWithHttps url)).map
        (fun _ => Finding.rule sev d)) ∧
    ((applyRules idxViolating threeBuiltinRules).map List.length = some 3) := by
  have h12 : ¬ ("$.components.securitySchemes" = "$.info.contact") := by decide
  have h13 : ¬ ("$.components.securitySchemes" = "$.servers[*].url") := by
    decide
  have h21 : ¬ ("$.info.contact" = "$.components.securitySchemes") := by decide
  have h23 : ¬ ("$.info.contact" = "$.servers[*].url") := by decide
  refine ⟨?_, ?_, evalRule_server idx sev d, rfl⟩
  · cases hp : idx.securitySchemesPresent <;> simp [evalRule, h12, h13, hp]
  · cases hp : idx.contactPresent <;> simp [evalRule, h21, h23, hp]

/-- C7: a syntactically complete rule (string `given` and `severity`)
whose selector is none of the three recognized ones is a no-op — it causes
no failure and contributes zero findings. -/
theorem unknown_selector_noop (idx : IndexFacts) (name given sev : String)
    (d : Yaml)
    (h1 : given ≠ "$.components.securitySchemes")
    (h2 : given ≠ "$.info.contact")
    (h3 : given ≠ "$.servers[*].url") :
    evalRule idx given sev d = [] ∧
    applyRules idx [(name, Yaml.map [("given", Yaml.str given),
      ("severity", Yaml.str sev), ("description", d)])] = some [] := by
  have he : evalRule idx given sev d = [] := by simp [evalRule, h1, h2, h3]
  constructor
  · exact he
  · show some (evalRule idx given sev d ++ []) = some []
    rw [he]
    rfl

/-- Witness for C7 at the selector of the specification's example,
`$.unknown.path`. -/
theorem unknown_selector_noop_witness :
    evalRule idxViolating "$.unknown.path" "error" Yaml.nullv = [] ∧
    applyRules idxViolating [("regra-desconhecida", Yaml.map
      [("given", Yaml.str "$.unknown.path"),
       ("severity", Yaml.str "error"),
       ("description", Yaml.nullv)])] = some [] :=
  unknown_selector_noop idxViolating "regra-desconhecida" "$.unknown.path"
    "error" Yaml.nullv (by decide) (by decide) (by decide)

/-- Counterexample to C4: a rule file in which one rule lacks the required
`severity` field is loaded successfully — `loadRules` performs no field
validation and returns no RuleFileError — while the rule loop later hits a
runtime panic (a failed type assertion), not an error value. -/
theorem loadRules_no_field_validation :
    loadRules collabMissingField fsContact "rules.yaml" =
      Except.ok rulesTopMissingField ∧
    applyRules (⟨true, false, [], []⟩ : IndexFacts) rulesMapMissingField =
      none :=
  ⟨rfl, rfl⟩

/-- C4 (amended): a rule missing `given` or `severity` (as a string) does
not produce a RuleFileError at load time; instead the evaluation loop in
`validateOpenAPIWithRules` panics, aborting the whole validation so that
no finding is ever reported. -/
theorem missing_rule_field_panics (c : Collab)
    (fs : String → Option (List Nat)) (filePath rulesFile : String)
    (data : List Nat) (doc : Yaml)
    (rulesTop rm pre rest ruleData : List (String × Yaml)) (name : String)
    (h1 : readFile fs filePath = Except.ok data)
    (h2 : c.parse data = Except.ok doc)
    (h3 : loadRules c fs rulesFile = Except.ok rulesTop)
    (h4 : lookupYaml rulesTop "rules" = some (Yaml.map rm))
    (h5 : rm = pre ++ (name, Yaml.map ruleData) :: rest)
    (h6 : ∀ g s2, ¬ (lookupYaml ruleData "given" = some (Yaml.str g) ∧
      lookupYaml ruleData "severity" = some (Yaml.str s2))) :
    validateOpenAPIWithRules c fs filePath rulesFile = Outcome.crash := by
  have hbad : applyRules (c.buildIndex doc)
      ((name, Yaml.map ruleData) :: rest) = none := by
    cases hg : lookupYaml ruleData "given" with
    | none => simp [applyRules, hg]
    | some gv =>
      cases gv with
      | nullv => simp [applyRules, hg]
      | map m2 => simp [applyRules, hg]
      | seq i2 => simp [applyRules, hg]
      | str g =>
        cases hs : lookupYaml ruleData "severity" with
        | none => simp [applyRules, hg, hs]
        | some sv =>
          cases sv with
          | nullv => simp [applyRules, hg, hs]
          | map m3 => simp [applyRules, hg, hs]
          | seq i3 => simp [applyRules, hg, hs]
          | str s2 => exact absurd ⟨hg, hs⟩ (h6 g s2)
  have hrm : applyRules (c.buildIndex doc) rm = none := by
    rw [h5, applyRules_append, hbad]
    cases applyRules (c.buildIndex doc) pre <;> rfl
  simp only [validateOpenAPIWithRules, h1, h2, h3, aggregateFindings,
    h4, hrm]

/-- Witness for C4 (amended): the rule file with a rule missing `severity`
makes the whole validation crash. -/
theorem missing_rule_field_panics_witness :
    validateOpenAPIWithRules collabMissingField fsContact
      "doc.yaml" "rules.yaml" = Outcome.crash :=
  missing_rule_field_panics collabMissingField fsContact
    "doc.yaml" "rules.yaml" [] Yaml.nullv
    rulesTopMissingField rulesMapMissingField
    [("boa", Yaml.map [("given", Yaml.str "$.info.contact"),
      ("severity", Yaml.str "error")])]
    [] [("given", Yaml.str "$.info.contact")] "quebrada"
    rfl rfl rfl rfl rfl
    (fun _ _ h => Option.noConfusion h.2)

/-- Counterexample to C10: a well-formed YAML rule file whose top level is
a sequence — hence not a mapping containing a `rules` key — makes
`loadRules` fail with an unmarshal type error instead of succeeding. -/
theorem loadRules_rejects_non_mapping :
    loadRules collabSeqRules fsAllEmpty "rules.yaml" =
      Except.error ("erro ao fazer unmarshal das regras: " ++
        "tipo de documento incompativel com map") :=
  rfl

/-- C10 (amended): for a rule file whose top level parses as a mapping
that lacks a `rules` key holding a mapping, `loadRules` succeeds, zero
custom rules are applied (the aggregated findings are exactly the
indexer's structural findings) and the malformed `rules` section is not
reported: validation succeeds iff the indexer reports nothing. -/
theorem missing_rules_key_ignored (c : Collab)
    (fs : String → Option (List Nat)) (filePath rulesFile : String)
    (data rdata : List Nat) (doc : Yaml) (top : List (String × Yaml))
    (h1 : readFile fs filePath = Except.ok data)
    (h2 : c.parse data = Except.ok doc)
    (h3 : fs rulesFile = some rdata)
    (h4 : c.parse rdata = Except.ok (Yaml.map top))
    (h5 : ∀ rm, lookupYaml top "rules" ≠ some (Yaml.map rm)) :
    loadRules c fs rulesFile = Except.ok top ∧
    aggregateFindings (c.buildIndex doc) top =
      some ((c.buildIndex doc).structuralFindings.map Finding.structural) ∧
    (validateOpenAPIWithRules c fs filePath rulesFile = Outcome.ok () ↔
      (c.buildIndex doc).structuralFindings = []) := by
  have hload : loadRules c fs rulesFile = Except.ok top := by
    simp only [loadRules, h3, h4, decodeStringMap]
  have hagg : aggregateFindings (c.buildIndex doc) top =
      some ((c.buildIndex doc).structuralFindings.map Finding.structural) := by
    unfold aggregateFindings
    cases hr : lookupYaml top "rules" with
    | none => rfl
    | some v =>
      cases v with
      | map rm => exact absurd hr (h5 rm)
      | str s => rfl
      | nullv => rfl
      | seq i => rfl
  refine ⟨hload, hagg, ?_⟩
  simp only [validateOpenAPIWithRules, h1, h2, hload, hagg]
  cases hsf : (c.buildIndex doc).structuralFindings with
  | nil => simp
  | cons f rest2 => simp

/-- Witness for C10 (amended): a rule file parsing to a mapping with only
an `x` key is loaded, applies no rules and validation passes over a clean
index. -/
theorem missing_rules_key_ignored_witness :
    loadRules collabNoRulesKey fsContact "rules.yaml" =
      Except.ok topNoRulesKey ∧
    aggregateFindings (collabNoRulesKey.buildIndex Yaml.nullv) topNoRulesKey =
      some ((collabNoRulesKey.buildIndex Yaml.nullv).structuralFindings.map
        Finding.structural) ∧
    (validateOpenAPIWithRules collabNoRulesKey fsContact
        "doc.yaml" "rules.yaml" = Outcome.ok () ↔
      (collabNoRulesKey.buildIndex Yaml.nullv).structuralFindings = []) :=
  missing_rules_key_ignored collabNoRulesKey fsContact "doc.yaml" "rules.yaml"
    [] [1] Yaml.nullv topNoRulesKey rfl rfl rfl rfl
    (fun _ h => Option.noConfusion h)

end OFB
